import Mathlib

/-!
# Attendance record service (`main.go`)

A shallow embedding of the four gRPC handlers of the attendance service
(`CheckIn`, `CheckOut`, `GetAttendance`, `GetAllAttendance`) and of the helper
`getNextID`, together with the parts of their collaborators that decide their
behaviour:

* the MongoDB collection is a list of documents in natural order, threaded
  through every handler as explicit state;
* `time.Now()` and the outcome of each storage call (driver failure or not)
  are inputs of a call, collected in `Env`;
* `int64` arithmetic is arithmetic on `Int` wrapped to 64 bits;
* `strconv.ParseInt(s, 10, 64)` and `strconv.FormatInt(i, 10)` are transcribed
  from the Go standard library.
-/

namespace Attendance

/-! ## Data model -/

/-- Status codes of `google.golang.org/grpc/codes` that the handlers return.
The message text of a status is not modelled. -/
inductive codes where
  | InvalidArgument
  | NotFound
  | ResourceExhausted
  | Internal
deriving DecidableEq, Repr

/-- The Go struct `AttendanceRecord`. A `time.Time` is an instant counted in
nanoseconds since the Unix epoch; the nil pointer of `CheckoutTime` is `none`. -/
structure AttendanceRecord where
  ID : Int
  UserID : String
  Username : String
  CheckinTime : Int
  CheckoutTime : Option Int
deriving DecidableEq, Repr

/-- A document of the collection `records`, with the fields the struct tags of
`AttendanceRecord` name. A BSON datetime counts milliseconds since the Unix
epoch. `decodes` records whether `Decode` accepts the document as an
`AttendanceRecord`: the service itself only writes documents that do, a
document written by another client may carry a field the struct cannot take. -/
structure Doc where
  id : Int
  user_id : String
  username : String
  checkin_time : Int
  checkout_time : Option Int
  decodes : Bool
deriving DecidableEq, Repr

/-- The message `AttendanceRecordResponse` of the generated package `pb`. -/
structure AttendanceRecordResponse where
  Id : String
  UserId : String
  Username : String
  CheckinTime : String
  CheckoutTime : String
  StatusMessage : String
deriving DecidableEq, Repr

/-- The message `GetAllAttendanceResponse`. -/
structure GetAllAttendanceResponse where
  Records : List AttendanceRecordResponse
deriving DecidableEq, Repr

/-- The message `CheckInRequest`. -/
structure CheckInRequest where
  UserId : String
  Username : String
deriving DecidableEq, Repr

/-- The message `CheckOutRequest`. -/
structure CheckOutRequest where
  RecordId : String
deriving DecidableEq, Repr

/-- The message `GetAttendanceRequest`. -/
structure GetAttendanceRequest where
  UserId : String
deriving DecidableEq, Repr

/-- A `*time.Location`, as far as the layout `2006-01-02 15:04:05` needs it:
`clock sec` is the calendar date and time of day that the zone shows at Unix
second `sec`, written in that layout. -/
structure Location where
  clock : Int → String

/-- The receiver `server`. Its `collection` is passed to every handler as
explicit state; `ist` is the display zone. -/
structure server where
  ist : Location

/-- What one call takes from outside the program: the reading of `time.Now()`
in nanoseconds, and whether the storage calls it makes come back with a driver
error (`readFails` for `FindOne` and `Find`, `writeFails` for `InsertOne` and
`FindOneAndUpdate`, `cursorFails` for `cursor.Err()` after the iteration). -/
structure Env where
  now : Int
  readFails : Bool
  writeFails : Bool
  cursorFails : Bool
deriving DecidableEq, Repr

/-- Errors of the MongoDB driver: `mongo.ErrNoDocuments`, or anything else
(connectivity, duplicate key, a decoding error). -/
inductive MongoErr where
  | ErrNoDocuments
  | failure
deriving DecidableEq, Repr

/-! ## Integers and time -/

/-- Conversion of an integer to `int64` (two's complement wrap-around). -/
def wrap64 (x : Int) : Int := (x + 2 ^ 63) % 2 ^ 64 - 2 ^ 63

/-- Encoding of a `time.Time` as a BSON datetime: whole milliseconds. -/
def toDateTime (t : Int) : Int := t / 1000000

/-- Decoding of a BSON datetime into a `time.Time`. -/
def fromDateTime (ms : Int) : Int := ms * 1000000

/-- The expression `t.In(s.ist).Format("2006-01-02 15:04:05 IST")`: the layout
has second precision and ends in the literal text ` IST`. -/
def formatIST (s : server) (t : Int) : String :=
  s.ist.clock (t / 1000000000) ++ " IST"

/-! ## `strconv` -/

/-- The Go helper `lower`: `c | ('x' - 'X')`. -/
def lower (c : Nat) : Nat := c ||| 32

/-- Errors of `strconv`: `ErrSyntax` and `ErrRange`. -/
inductive NumError where
  | ErrSyntax
  | ErrRange
deriving DecidableEq, Repr

/-- The constant `maxUint64`. -/
def maxUint64 : Nat := 2 ^ 64 - 1

/-- The digit loop of `strconv.ParseUint` for base 10 and bit size 64, with
`n` the value accumulated so far. The loop ranges over the bytes of the
string; here it ranges over its characters, and a character outside ASCII
ends the loop in the `default` case exactly as its first byte does. -/
def ParseUintLoop : List Char → Nat → Except NumError Nat
  | [], n => .ok n
  | c :: cs, n =>
    let b := c.toNat
    let digit : Option Nat :=
      if 48 ≤ b ∧ b ≤ 57 then some (b - 48)
      else if 97 ≤ lower b ∧ lower b ≤ 122 then some (lower b - 97 + 10)
      else none
    match digit with
    | none => .error .ErrSyntax
    | some d =>
      if d ≥ 10 then .error .ErrSyntax
      else if n ≥ maxUint64 / 10 + 1 then .error .ErrRange
      else
        let n10 := n * 10 % 2 ^ 64
        let n1 := (n10 + d) % 2 ^ 64
        if n1 < n10 ∨ n1 > maxUint64 then .error .ErrRange
        else ParseUintLoop cs n1

/-- The call `strconv.ParseUint(s, 10, 64)`. -/
def ParseUint (s : List Char) : Except NumError Nat :=
  if s = [] then .error .ErrSyntax else ParseUintLoop s 0

/-- The part of `strconv.ParseInt` after the sign is picked off. -/
def ParseIntSigned (neg : Bool) (s : List Char) : Except NumError Int :=
  match ParseUint s with
  | .error e => .error e
  | .ok un =>
    let cutoff : Nat := 2 ^ 63
    if !neg && decide (un ≥ cutoff) then .error .ErrRange
    else if neg && decide (un > cutoff) then .error .ErrRange
    else
      let n := wrap64 un
      if neg then .ok (wrap64 (-n)) else .ok n

/-- The call `strconv.ParseInt(s, 10, 64)`. -/
def ParseInt (s : String) : Except NumError Int :=
  match s.data with
  | [] => .error .ErrSyntax
  | c :: cs =>
    if c = '+' then ParseIntSigned false cs
    else if c = '-' then ParseIntSigned true cs
    else ParseIntSigned false (c :: cs)

/-- The call `strconv.FormatInt(i, 10)`: the decimal digits of the magnitude
of `i`, behind a minus sign when `i` is negative. -/
def FormatInt (i : Int) : String :=
  if i < 0 then "-" ++ Nat.repr i.natAbs else Nat.repr i.natAbs

/-! ## The collection -/

/-- Encoding of an `AttendanceRecord` as a document; a nil `CheckoutTime` is
left out (`omitempty`). -/
def encode (r : AttendanceRecord) : Doc :=
  { id := r.ID, user_id := r.UserID, username := r.Username,
    checkin_time := toDateTime r.CheckinTime,
    checkout_time := r.CheckoutTime.map toDateTime, decodes := true }

/-- The record a document decodes to, when it decodes. -/
def toRecord (d : Doc) : AttendanceRecord :=
  { ID := d.id, UserID := d.user_id, Username := d.username,
    CheckinTime := fromDateTime d.checkin_time,
    CheckoutTime := d.checkout_time.map fromDateTime }

/-- The driver call `Decode(&record)` on one document. -/
def Decode (d : Doc) : Except MongoErr AttendanceRecord :=
  if d.decodes then .ok (toRecord d) else .error .failure

/-- First document of a descending sort on `key`. MongoDB leaves the order
among documents with equal keys open; here the earliest in natural order comes
first. -/
def maxBy (key : Doc → Int) : List Doc → Option Doc
  | [] => none
  | d :: ds =>
    match maxBy key ds with
    | none => some d
    | some b => if key b > key d then some b else some d

/-- The call `collection.FindOne(ctx, filter, opts).Decode(&latest)` with a
descending sort on `key`. -/
def FindOne (fails : Bool) (filter : Doc → Bool) (key : Doc → Int)
    (coll : List Doc) : Except MongoErr AttendanceRecord :=
  if fails then .error .failure
  else
    match maxBy key (coll.filter filter) with
    | none => .error .ErrNoDocuments
    | some d => Decode d

/-- The call `collection.InsertOne(ctx, record)`: the collection is keyed by
`_id`, a second document with the same key is refused. -/
def InsertOne (fails : Bool) (record : AttendanceRecord) (coll : List Doc) :
    Except MongoErr Unit × List Doc :=
  if fails then (.error .failure, coll)
  else if coll.any (fun d => decide (d.id = record.ID)) then (.error .failure, coll)
  else (.ok (), coll ++ [encode record])

/-- The update `$set checkout_time` applied to the first document whose `_id`
is `id`; the result holds the document after the update and the collection
after the update. -/
def updateOne (id : Int) (t : Int) : List Doc → Option (Doc × List Doc)
  | [] => none
  | d :: ds =>
    if d.id = id then
      some ({ d with checkout_time := some t }, { d with checkout_time := some t } :: ds)
    else
      match updateOne id t ds with
      | none => none
      | some (u, ds') => some (u, d :: ds')

/-- The call `collection.FindOneAndUpdate(ctx, {_id: id}, {$set:
{checkout_time: now}}, opts).Decode(&updated)` with `ReturnDocument(After)`.
A driver failure leaves the collection as it was; a document that decodes
still decodes after the update. -/
def FindOneAndUpdate (fails : Bool) (id : Int) (now : Int) (coll : List Doc) :
    Except MongoErr AttendanceRecord × List Doc :=
  if fails then (.error .failure, coll)
  else
    match updateOne id (toDateTime now) coll with
    | none => (.error .ErrNoDocuments, coll)
    | some (d, coll') => (Decode d, coll')

/-! ## Handlers -/

/-- The function `getNextID`. -/
def getNextID (env : Env) (coll : List Doc) : Except codes Int :=
  match FindOne env.readFails (fun _ => true) Doc.id coll with
  | .error .ErrNoDocuments => .ok 1
  | .error .failure => .error .Internal
  | .ok latest =>
    let nextID := wrap64 (latest.ID + 1)
    if nextID ≥ 1000 then .error .ResourceExhausted else .ok nextID

/-- The handler `CheckIn`: its result and the collection after the call. -/
def CheckIn (s : server) (env : Env) (req : CheckInRequest) (coll : List Doc) :
    Except codes AttendanceRecordResponse × List Doc :=
  match getNextID env coll with
  | .error e => (.error e, coll)
  | .ok newID =>
    let record : AttendanceRecord :=
      { ID := newID, UserID := req.UserId, Username := req.Username,
        CheckinTime := env.now, CheckoutTime := none }
    match InsertOne env.writeFails record coll with
    | (.error _, coll') => (.error .Internal, coll')
    | (.ok _, coll') =>
      (.ok { Id := FormatInt record.ID, UserId := record.UserID,
             Username := record.Username,
             CheckinTime := formatIST s record.CheckinTime,
             CheckoutTime := "",
             StatusMessage := "User checked in successfully." }, coll')

/-- The response built from a found record in `CheckOut`, `GetAttendance` and
`GetAllAttendance`, which differ in the status message only. -/
def recordResponse (s : server) (r : AttendanceRecord) (msg : String) :
    AttendanceRecordResponse :=
  let checkinIST := formatIST s r.CheckinTime
  let checkoutIST :=
    match r.CheckoutTime with
    | none => ""
    | some t => formatIST s t
  { Id := FormatInt r.ID, UserId := r.UserID, Username := r.Username,
    CheckinTime := checkinIST, CheckoutTime := checkoutIST, StatusMessage := msg }

/-- The handler `CheckOut`: its result and the collection after the call. -/
def CheckOut (s : server) (env : Env) (req : CheckOutRequest) (coll : List Doc) :
    Except codes AttendanceRecordResponse × List Doc :=
  match ParseInt req.RecordId with
  | .error _ => (.error .InvalidArgument, coll)
  | .ok recordID =>
    match FindOneAndUpdate env.writeFails recordID env.now coll with
    | (.error .ErrNoDocuments, coll') => (.error .NotFound, coll')
    | (.error .failure, coll') => (.error .Internal, coll')
    | (.ok updated, coll') =>
      (.ok (recordResponse s updated "User checked out successfully."), coll')

/-- The handler `GetAttendance`: its result and the collection after the
call. -/
def GetAttendance (s : server) (env : Env) (req : GetAttendanceRequest)
    (coll : List Doc) : Except codes AttendanceRecordResponse × List Doc :=
  match FindOne env.readFails (fun d => decide (d.user_id = req.UserId))
      Doc.checkin_time coll with
  | .error .ErrNoDocuments => (.error .NotFound, coll)
  | .error .failure => (.error .Internal, coll)
  | .ok latest => (.ok (recordResponse s latest "Record found."), coll)

/-- One turn of the cursor loop of `GetAllAttendance`: a document that does
not decode is passed over (`continue`), any other is appended. -/
def collect (s : server) (allRecords : List AttendanceRecordResponse) (d : Doc) :
    List AttendanceRecordResponse :=
  match Decode d with
  | .error _ => allRecords
  | .ok record => allRecords ++ [recordResponse s record "Record retrieved."]

/-- The handler `GetAllAttendance`: its result and the collection after the
call. -/
def GetAllAttendance (s : server) (env : Env) (coll : List Doc) :
    Except codes GetAllAttendanceResponse × List Doc :=
  if env.readFails then (.error .Internal, coll)
  else
    let allRecords := coll.foldl (collect s) []
    if env.cursorFails then (.error .Internal, coll)
    else (.ok { Records := allRecords }, coll)

/-! ## Runs of calls and concrete instances -/

/-- A run of `CheckIn` calls executed one after another on the collection:
the results in call order and the collection after the last call. -/
def checkIns (s : server) :
    List (Env × CheckInRequest) → List Doc →
      List (Except codes AttendanceRecordResponse) × List Doc
  | [], coll => ([], coll)
  | c :: cs, coll =>
    let r := CheckIn s c.1 c.2 coll
    let rest := checkIns s cs r.2
    (r.1 :: rest.1, rest.2)

/-- One call of any of the four handlers, with what it takes from outside. -/
inductive Call where
  | checkIn (env : Env) (req : CheckInRequest)
  | checkOut (env : Env) (req : CheckOutRequest)
  | getAttendance (env : Env) (req : GetAttendanceRequest)
  | getAllAttendance (env : Env)

/-- The collection after one call. -/
def exec (s : server) (coll : List Doc) : Call → List Doc
  | .checkIn env req => (CheckIn s env req coll).2
  | .checkOut env req => (CheckOut s env req coll).2
  | .getAttendance env req => (GetAttendance s env req coll).2
  | .getAllAttendance env => (GetAllAttendance s env coll).2

/-- The collection after a finite sequence of calls executed one after
another. -/
def run (s : server) (calls : List Call) (coll : List Doc) : List Doc :=
  calls.foldl (exec s) coll

/-- A string of one or more ASCII decimal digits. -/
def isDecimal (cs : List Char) : Bool :=
  !cs.isEmpty && cs.all (fun c => decide (48 ≤ c.toNat ∧ c.toNat ≤ 57))

/-- A decimal numeral with an optional sign: `+` or `-` or nothing, followed
by one or more ASCII decimal digits. -/
def signedDecimal (s : String) : Bool :=
  match s.data with
  | [] => false
  | c :: cs =>
    if c = '+' then isDecimal cs
    else if c = '-' then isDecimal cs
    else isDecimal (c :: cs)

/-- Decimal digits of `n`, padded with zeros on the left to width `w`. -/
def pad (w n : Nat) : String :=
  String.mk (List.replicate (w - (Nat.toDigits 10 n).length) '0' ++ Nat.toDigits 10 n)

/-- The zone `Asia/Kolkata` that `main` loads, as it has stood since 1945:
five and a half hours ahead of UTC all year. The calendar date comes from the
day count by the usual era / day-of-era computation of the Gregorian
calendar. -/
def kolkata : Location where
  clock sec :=
    let lsec := sec + 19800
    let rem := lsec % 86400
    let z := lsec / 86400 + 719468
    let era := z / 146097
    let doe := z % 146097
    let yoe := (doe - doe / 1460 + doe / 36524 - doe / 146096) / 365
    let doy := doe - (365 * yoe + yoe / 4 - yoe / 100)
    let mp := (5 * doy + 2) / 153
    let d := doy - (153 * mp + 2) / 5 + 1
    let m := if mp < 10 then mp + 3 else mp - 9
    let y := yoe + era * 400 + (if m ≤ 2 then 1 else 0)
    pad 4 y.toNat ++ "-" ++ pad 2 m.toNat ++ "-" ++ pad 2 d.toNat ++ " " ++
      pad 2 (rem / 3600).toNat ++ ":" ++ pad 2 (rem % 3600 / 60).toNat ++ ":" ++
      pad 2 (rem % 60).toNat

/-- The server as `main` registers it. -/
def srv : server := { ist := kolkata }

/-- A call at clock reading `now` that meets no storage failure. -/
def calm (now : Int) : Env :=
  { now := now, readFails := false, writeFails := false, cursorFails := false }

/-- A collection of at most 999 documents that carry the ids 1, 2, ..., in
natural order, and all decode: the shape of every collection the service
builds up from the empty one. -/
def Sequential (coll : List Doc) : Prop :=
  coll.map Doc.id = (List.range' 1 coll.length).map Int.ofNat ∧
    coll.length ≤ 999 ∧ ∀ d ∈ coll, d.decodes = true

/-- The document `CheckIn` inserts for id `k`. -/
def newDoc (env : Env) (req : CheckInRequest) (k : Int) : Doc :=
  encode { ID := k, UserID := req.UserId, Username := req.Username,
           CheckinTime := env.now, CheckoutTime := none }

/-- Two check-in calls a minute apart that meet no storage failure. -/
def twoCalls : List (Env × CheckInRequest) :=
  [(calm 1700000000000000000, ⟨"u1", "Alice"⟩), (calm 1700000060000000000, ⟨"u2", "Bob"⟩)]

/-- A collection of three documents, two of them of user `u1`. -/
def threeDocs : List Doc :=
  [⟨1, "u1", "Alice", 1600000000000, some 1600000500000, true⟩,
   ⟨2, "u2", "Bob", 1600000100000, none, true⟩,
   ⟨3, "u1", "Alice", 1600000200000, none, true⟩]

/-- A run of all four handlers on the empty collection: a check-in, the
check-out of record 1, and the two queries. -/
def fourCalls : List Call :=
  [.checkIn (calm 1700000000000000000) ⟨"u1", "Alice"⟩,
   .checkOut (calm 1700000600000000000) ⟨"1"⟩,
   .getAttendance (calm 1700000700000000000) ⟨"u1"⟩,
   .getAllAttendance (calm 1700000800000000000)]

deriving instance DecidableEq for Except

/-! ## Lemmas on strconv -/

theorem digitChar_toNat (d : Nat) (h : d < 10) : (Nat.digitChar d).toNat = 48 + d := by
  interval_cases d <;> rfl

theorem ParseUintLoop_digit (d : Nat) (h : d < 10) (cs : List Char) (a : Nat)
    (hb : a * 10 + d < 2 ^ 64) :
    ParseUintLoop (Nat.digitChar d :: cs) a = ParseUintLoop cs (a * 10 + d) := by
  have hc := digitChar_toNat d h
  have h1 : a * 10 % 2 ^ 64 = a * 10 := Nat.mod_eq_of_lt (by omega)
  have h2 : (a * 10 + d) % 2 ^ 64 = a * 10 + d := Nat.mod_eq_of_lt hb
  have h3 : ¬ (a ≥ maxUint64 / 10 + 1) := by
    simp only [maxUint64]; norm_num; omega
  have h4 : ¬ (a * 10 + d < a * 10 ∨ a * 10 + d > maxUint64) := by
    simp only [maxUint64]; omega
  have h5 : 48 ≤ 48 + d ∧ 48 + d ≤ 57 := by omega
  have h6 : ¬ (48 + d - 48 ≥ 10) := by omega
  have h7 : 48 + d - 48 = d := by omega
  have h8 : ¬ (d ≥ 10) := by omega
  rw [ParseUintLoop]
  simp only [hc, h5, and_self, if_true, h6, if_false, h3, h1, h7, h2, h4, h8]

theorem ParseUintLoop_append (xs ys : List Char) :
    ∀ a v, ParseUintLoop xs a = .ok v → ParseUintLoop (xs ++ ys) a = ParseUintLoop ys v := by
  induction xs with
  | nil => intro a v h; simp [ParseUintLoop] at h; simp [h]
  | cons c cs ih =>
    intro a v h
    rw [ParseUintLoop] at h
    rw [List.cons_append, ParseUintLoop]
    revert h
    simp only []
    split
    · intro h; cases h
    · split
      · intro h; cases h
      · split
        · intro h; cases h
        · split
          · intro h; cases h
          · intro h; exact ih _ _ h

theorem ParseUintLoop_ok_digits (cs : List Char) :
    ∀ a v, ParseUintLoop cs a = .ok v →
      cs.all (fun c => decide (48 ≤ c.toNat ∧ c.toNat ≤ 57)) = true := by
  induction cs with
  | nil => intro a v _; rfl
  | cons c cs ih =>
    intro a v h
    rw [ParseUintLoop] at h
    by_cases hd : 48 ≤ c.toNat ∧ c.toNat ≤ 57
    · simp only [hd, and_self, if_true] at h
      split_ifs at h
      simp only [List.all_cons, hd, and_self, decide_True, Bool.true_and]
      exact ih _ _ h
    · simp only [hd, if_false] at h
      by_cases hl : 97 ≤ lower c.toNat ∧ lower c.toNat ≤ 122
      · have h10 : lower c.toNat - 97 + 10 ≥ 10 := by omega
        simp only [hl, and_self, if_true, h10] at h
        cases h
      · simp only [hl, if_false] at h
        cases h

theorem toDigitsCore_append (f : Nat) : ∀ n ds,
    Nat.toDigitsCore 10 f n ds = Nat.toDigitsCore 10 f n [] ++ ds := by
  induction f with
  | zero => intro n ds; simp [Nat.toDigitsCore]
  | succ f ih =>
    intro n ds
    simp only [Nat.toDigitsCore]
    split
    · simp
    · rw [ih (n / 10) (Nat.digitChar (n % 10) :: ds), ih (n / 10) [Nat.digitChar (n % 10)]]
      simp

theorem ParseUintLoop_toDigitsCore (f : Nat) : ∀ n, n < f → n < 2 ^ 64 →
    ParseUintLoop (Nat.toDigitsCore 10 f n []) 0 = .ok n := by
  induction f with
  | zero => intro n h; omega
  | succ f ih =>
    intro n h hn
    simp only [Nat.toDigitsCore]
    by_cases h0 : n / 10 = 0
    · rw [if_pos h0, ParseUintLoop_digit _ (Nat.mod_lt _ (by decide)) _ _ (by omega)]
      simp only [ParseUintLoop]
      congr 1; omega
    · rw [if_neg h0, toDigitsCore_append,
        ParseUintLoop_append _ _ _ _ (ih (n / 10) (by omega) (by omega)),
        ParseUintLoop_digit _ (Nat.mod_lt _ (by decide)) _ _ (by omega)]
      simp only [ParseUintLoop]
      congr 1; omega

theorem toDigitsCore_ne_nil (f n : Nat) : Nat.toDigitsCore 10 (f + 1) n [] ≠ [] := by
  simp only [Nat.toDigitsCore]
  split
  · simp
  · rw [toDigitsCore_append]; simp

theorem ParseUint_toDigits (n : Nat) (hn : n < 2 ^ 64) :
    ParseUint (Nat.toDigits 10 n) = .ok n := by
  unfold ParseUint Nat.toDigits
  rw [if_neg (toDigitsCore_ne_nil n n)]
  exact ParseUintLoop_toDigitsCore (n + 1) n (by omega) hn

theorem ParseInt_FormatInt (i : Int) (hlo : -2 ^ 63 ≤ i) (hhi : i < 2 ^ 63) :
    ParseInt (FormatInt i) = .ok i := by
  have hp : ParseUint (Nat.toDigits 10 i.natAbs) = .ok i.natAbs :=
    ParseUint_toDigits _ (by omega)
  unfold FormatInt
  by_cases hneg : i < 0
  · rw [if_pos hneg]
    have hdata : ("-" ++ Nat.repr i.natAbs).data = '-' :: Nat.toDigits 10 i.natAbs := by
      rw [String.data_append]; rfl
    have hle : ¬ (i.natAbs > 2 ^ 63) := by omega
    have hval : wrap64 (-wrap64 (i.natAbs : Int)) = i := by
      unfold wrap64; omega
    unfold ParseInt
    rw [hdata]
    simp only [Char.reduceEq, if_false, if_true]
    unfold ParseIntSigned
    rw [hp]
    simp only [Bool.not_true, Bool.false_and, Bool.true_and, hle, decide_False, if_true,
      hval]
    rfl
  · rw [if_neg hneg]
    have hlt : ¬ (i.natAbs ≥ 2 ^ 63) := by omega
    have hval : wrap64 (i.natAbs : Int) = i := by
      unfold wrap64; omega
    have hdata : (Nat.repr i.natAbs).data = Nat.toDigits 10 i.natAbs := rfl
    have hall := hp
    unfold ParseUint at hall
    have hne : Nat.toDigits 10 i.natAbs ≠ [] := toDigitsCore_ne_nil _ _
    rw [if_neg hne] at hall
    have hdig := ParseUintLoop_ok_digits _ _ _ hall
    unfold ParseInt
    rw [hdata]
    cases hl : Nat.toDigits 10 i.natAbs with
    | nil => exact absurd hl hne
    | cons c cs =>
      rw [hl] at hdig hp
      simp only [List.all_cons, Bool.and_eq_true, decide_eq_true_eq] at hdig
      have hc1 : c ≠ '+' := by
        intro hc; rw [hc] at hdig; exact absurd hdig.1.1 (by decide)
      have hc2 : c ≠ '-' := by
        intro hc; rw [hc] at hdig; exact absurd hdig.1.1 (by decide)
      simp only [hc1, hc2, if_false]
      unfold ParseIntSigned
      rw [hp]
      simp only [Bool.not_false, Bool.true_and, hlt, decide_False, Bool.false_and, if_false,
        hval]
      rfl

theorem ParseIntSigned_ok_decimal (neg : Bool) (cs : List Char) (v : Int)
    (h : ParseIntSigned neg cs = .ok v) : isDecimal cs = true := by
  unfold ParseIntSigned at h
  cases hp : ParseUint cs with
  | error e => rw [hp] at h; cases h
  | ok un =>
    unfold ParseUint at hp
    by_cases hnil : cs = []
    · rw [if_pos hnil] at hp; cases hp
    · rw [if_neg hnil] at hp
      have hd := ParseUintLoop_ok_digits _ _ _ hp
      cases cs with
      | nil => exact absurd rfl hnil
      | cons c cs => simpa [isDecimal] using hd

theorem ParseInt_ok_signedDecimal (s : String) (v : Int) (h : ParseInt s = .ok v) :
    signedDecimal s = true := by
  unfold ParseInt at h
  unfold signedDecimal
  cases hs : s.data with
  | nil => rw [hs] at h; cases h
  | cons c cs =>
    rw [hs] at h
    simp only [] at h ⊢
    by_cases h1 : c = '+'
    · rw [if_pos h1] at h ⊢; exact ParseIntSigned_ok_decimal _ _ _ h
    · rw [if_neg h1] at h ⊢
      by_cases h2 : c = '-'
      · rw [if_pos h2] at h ⊢; exact ParseIntSigned_ok_decimal _ _ _ h
      · rw [if_neg h2] at h ⊢; exact ParseIntSigned_ok_decimal _ _ _ h

/-! ## Lemmas on time -/

theorem formatIST_stored (s : server) (t : Int) :
    formatIST s (fromDateTime (toDateTime t)) = formatIST s t := by
  unfold formatIST fromDateTime toDateTime
  have : t / 1000000 * 1000000 / 1000000000 = t / 1000000000 := by omega
  rw [this]

theorem formatIST_ne_empty (s : server) (t : Int) : formatIST s t ≠ "" := by
  unfold formatIST
  intro h
  have h2 := congrArg String.length h
  rw [String.length_append] at h2
  have h3 : " IST".length = 4 := by decide
  have h4 : "".length = 0 := by decide
  omega

theorem toDateTime_mono {a b : Int} (h : a ≤ b) : toDateTime a ≤ toDateTime b := by
  unfold toDateTime; omega

theorem fromDateTime_le {a b : Int} (h : a ≤ b) : fromDateTime a ≤ fromDateTime b := by
  unfold fromDateTime; omega

/-! ## Lemmas on the collection -/

theorem maxBy_none (key : Doc → Int) (l : List Doc) : maxBy key l = none ↔ l = [] := by
  cases l with
  | nil => simp [maxBy]
  | cons d ds =>
    simp only [maxBy]
    cases maxBy key ds with
    | none => simp
    | some b => simp only []; split <;> simp

theorem maxBy_some (key : Doc → Int) : ∀ (l : List Doc) (d : Doc), maxBy key l = some d →
    d ∈ l ∧ ∀ x ∈ l, key x ≤ key d := by
  intro l
  induction l with
  | nil => intro d h; simp [maxBy] at h
  | cons a l ih =>
    intro d h
    simp only [maxBy] at h
    cases hm : maxBy key l with
    | none =>
      rw [hm] at h
      simp only [Option.some.injEq] at h
      have hl : l = [] := (maxBy_none key l).1 hm
      subst hl; subst h
      simp
    | some b =>
      rw [hm] at h
      obtain ⟨hb, hmax⟩ := ih b hm
      simp only [] at h
      by_cases hk : key b > key a
      · rw [if_pos hk] at h
        simp only [Option.some.injEq] at h
        subst h
        refine ⟨List.mem_cons_of_mem _ hb, ?_⟩
        intro x hx
        rcases List.mem_cons.1 hx with rfl | hx
        · omega
        · exact hmax x hx
      · rw [if_neg hk] at h
        simp only [Option.some.injEq] at h
        subst h
        refine ⟨List.mem_cons_self _ _, ?_⟩
        intro x hx
        rcases List.mem_cons.1 hx with rfl | hx
        · exact le_refl _
        · have := hmax x hx; omega

theorem updateOne_none (id t : Int) : ∀ (l : List Doc),
    updateOne id t l = none ↔ ∀ d ∈ l, d.id ≠ id := by
  intro l
  induction l with
  | nil => simp [updateOne]
  | cons a l ih =>
    simp only [updateOne]
    by_cases h : a.id = id
    · rw [if_pos h]; simp [h]
    · rw [if_neg h]
      cases hu : updateOne id t l with
      | none =>
        have hall := ih.1 hu
        simp only [true_iff]
        intro d hd
        rcases List.mem_cons.1 hd with rfl | hd
        · exact h
        · exact hall d hd
      | some p =>
        simp only [false_iff, reduceCtorEq]
        intro hall
        have : updateOne id t l = none := ih.2 (fun d hd => hall d (List.mem_cons_of_mem _ hd))
        rw [hu] at this; cases this

theorem updateOne_some (id t : Int) : ∀ (l : List Doc) (u : Doc) (l' : List Doc),
    updateOne id t l = some (u, l') →
      (∃ r ∈ l, r.id = id ∧ u = { r with checkout_time := some t }) ∧
      l'.map Doc.id = l.map Doc.id := by
  intro l
  induction l with
  | nil => intro u l' h; simp [updateOne] at h
  | cons a l ih =>
    intro u l' h
    simp only [updateOne] at h
    by_cases ha : a.id = id
    · rw [if_pos ha] at h
      simp only [Option.some.injEq, Prod.mk.injEq] at h
      obtain ⟨h1, h2⟩ := h
      subst h1; subst h2
      exact ⟨⟨a, List.mem_cons_self _ _, ha, rfl⟩, by simp⟩
    · rw [if_neg ha] at h
      cases hu : updateOne id t l with
      | none => rw [hu] at h; cases h
      | some p =>
        obtain ⟨u0, l0⟩ := p
        rw [hu] at h
        simp only [Option.some.injEq, Prod.mk.injEq] at h
        obtain ⟨h1, h2⟩ := h
        subst h1; subst h2
        obtain ⟨⟨r, hr, hid, hur⟩, hmap⟩ := ih _ _ hu
        exact ⟨⟨r, List.mem_cons_of_mem _ hr, hid, hur⟩, by simp [hmap]⟩

/-! ## Lemmas on the handlers -/

theorem wrap64_range (x : Int) : -2 ^ 63 ≤ wrap64 x ∧ wrap64 x < 2 ^ 63 := by
  unfold wrap64; omega

theorem wrap64_id (x : Int) (h1 : -2 ^ 63 ≤ x) (h2 : x < 2 ^ 63) : wrap64 x = x := by
  unfold wrap64; omega

theorem getNextID_nil (env : Env) (h : env.readFails = false) : getNextID env [] = .ok 1 := by
  simp [getNextID, FindOne, h, maxBy]

theorem getNextID_max (env : Env) (coll : List Doc) (h : env.readFails = false)
    (hne : coll ≠ []) :
    ∃ d ∈ coll, (∀ x ∈ coll, x.id ≤ d.id) ∧
      getNextID env coll =
        if d.decodes = true then
          (if wrap64 (d.id + 1) ≥ 1000 then .error .ResourceExhausted
           else .ok (wrap64 (d.id + 1)))
        else .error .Internal := by
  have hf : coll.filter (fun _ => true) = coll := by simp
  cases hm : maxBy Doc.id coll with
  | none => exact absurd ((maxBy_none _ _).1 hm) hne
  | some d =>
    obtain ⟨hd, hmax⟩ := maxBy_some _ _ _ hm
    refine ⟨d, hd, hmax, ?_⟩
    unfold getNextID FindOne
    rw [h, hf, hm]
    simp only [Bool.false_eq_true, if_false, Decode]
    by_cases hdec : d.decodes = true
    · simp only [hdec, if_true, toRecord]
    · have hdec2 : d.decodes = false := by simpa using hdec
      simp only [hdec2, Bool.false_eq_true, if_false]

theorem getNextID_ok (env : Env) (coll : List Doc) (k : Int)
    (h : getNextID env coll = .ok k) :
    -2 ^ 63 ≤ k ∧ k < 1000 ∧ (coll = [] → k = 1) ∧
      (coll ≠ [] → ∃ d ∈ coll, (∀ x ∈ coll, x.id ≤ d.id) ∧ k = wrap64 (d.id + 1)) := by
  have hr : env.readFails = false := by
    cases hrf : env.readFails with
    | false => rfl
    | true => simp [getNextID, FindOne, hrf] at h
  by_cases hne : coll = []
  · subst hne
    rw [getNextID_nil env hr] at h
    simp only [Except.ok.injEq] at h
    subst h
    refine ⟨by norm_num, by norm_num, fun _ => rfl, fun hc => absurd rfl hc⟩
  · obtain ⟨d, hd, hmax, heq⟩ := getNextID_max env coll hr hne
    rw [heq] at h
    split_ifs at h with h1 h2
    simp only [Except.ok.injEq] at h
    subst h
    exact ⟨(wrap64_range _).1, by omega, fun hc => absurd hc hne, fun _ => ⟨d, hd, hmax, rfl⟩⟩

theorem CheckIn_ok (s : server) (env : Env) (req : CheckInRequest) (coll : List Doc)
    (resp : AttendanceRecordResponse) (h : (CheckIn s env req coll).1 = .ok resp) :
    ∃ k, getNextID env coll = .ok k ∧ (∀ d ∈ coll, d.id ≠ k) ∧
      (CheckIn s env req coll).2 = coll ++ [newDoc env req k] ∧
      resp = { Id := FormatInt k, UserId := req.UserId, Username := req.Username,
               CheckinTime := formatIST s env.now, CheckoutTime := "",
               StatusMessage := "User checked in successfully." } := by
  cases hg : getNextID env coll with
  | error e => simp only [CheckIn, hg] at h; cases h
  | ok k =>
    simp only [CheckIn, hg, InsertOne] at h ⊢
    by_cases hw : env.writeFails = true
    · rw [if_pos hw] at h; cases h
    · rw [if_neg hw] at h ⊢
      by_cases hdup : (coll.any fun d => decide (d.id = k)) = true
      · rw [if_pos hdup] at h; cases h
      · rw [if_neg hdup] at h ⊢
        simp only [Except.ok.injEq] at h
        refine ⟨k, rfl, ?_, rfl, h.symm⟩
        intro d hd hk
        apply hdup
        simp only [List.any_eq_true, decide_eq_true_eq]
        exact ⟨d, hd, hk⟩

theorem CheckIn_error (s : server) (env : Env) (req : CheckInRequest) (coll : List Doc)
    (e : codes) (h : (CheckIn s env req coll).1 = .error e) :
    (CheckIn s env req coll).2 = coll := by
  cases hg : getNextID env coll with
  | error e => simp only [CheckIn, hg]
  | ok k =>
    simp only [CheckIn, hg, InsertOne] at h ⊢
    by_cases hw : env.writeFails = true
    · rw [if_pos hw]
    · rw [if_neg hw] at h ⊢
      by_cases hdup : (coll.any fun d => decide (d.id = k)) = true
      · rw [if_pos hdup]
      · rw [if_neg hdup] at h; cases h

theorem CheckIn_calm (s : server) (env : Env) (req : CheckInRequest) (coll : List Doc)
    (k : Int) (hg : getNextID env coll = .ok k) (hw : env.writeFails = false)
    (hfresh : ∀ d ∈ coll, d.id ≠ k) :
    CheckIn s env req coll =
      (.ok { Id := FormatInt k, UserId := req.UserId, Username := req.Username,
             CheckinTime := formatIST s env.now, CheckoutTime := "",
             StatusMessage := "User checked in successfully." },
       coll ++ [newDoc env req k]) := by
  have hdup : ¬ (coll.any fun d => decide (d.id = k)) = true := by
    simp only [List.any_eq_true, decide_eq_true_eq, not_exists, not_and]
    exact hfresh
  unfold CheckIn
  rw [hg]
  simp only [InsertOne, hw, Bool.false_eq_true, if_false, hdup]
  rfl

/-! ## Collections built up from the empty one -/

theorem Sequential_nil : Sequential [] := by
  refine ⟨rfl, by simp, ?_⟩
  intro d hd; cases hd

theorem Sequential_mem {coll : List Doc} (h : Sequential coll) {d : Doc} (hd : d ∈ coll) :
    1 ≤ d.id ∧ d.id ≤ coll.length := by
  have hm : d.id ∈ coll.map Doc.id := List.mem_map_of_mem _ hd
  rw [h.1] at hm
  obtain ⟨n, hn, hnd⟩ := List.mem_map.1 hm
  rw [List.mem_range'_1] at hn
  rw [← hnd]
  simp only [Int.ofNat_eq_coe]
  omega

theorem Sequential_last {coll : List Doc} (h : Sequential coll) (hne : coll ≠ []) :
    ∃ d ∈ coll, d.id = coll.length := by
  have hpos : 0 < coll.length := List.length_pos.2 hne
  have hm : Int.ofNat coll.length ∈ (List.range' 1 coll.length).map Int.ofNat := by
    apply List.mem_map_of_mem
    rw [List.mem_range'_1]; omega
  rw [← h.1] at hm
  obtain ⟨d, hd, hid⟩ := List.mem_map.1 hm
  exact ⟨d, hd, by simpa using hid⟩

theorem Sequential_nodup {coll : List Doc} (h : Sequential coll) :
    (coll.map Doc.id).Nodup := by
  rw [h.1]
  exact (List.nodup_range' 1 coll.length).map (fun a b hab => by simpa using hab)

theorem Sequential_getNextID_ok {coll : List Doc} (h : Sequential coll) (env : Env) (k : Int)
    (hk : getNextID env coll = .ok k) : k = coll.length + 1 ∧ coll.length < 999 := by
  obtain ⟨_, hlt, hnil, hcons⟩ := getNextID_ok env coll k hk
  by_cases hne : coll = []
  · subst hne
    simp [hnil rfl]
  · obtain ⟨d, hd, hmax, hkd⟩ := hcons hne
    obtain ⟨x, hx, hxid⟩ := Sequential_last h hne
    have h1 := Sequential_mem h hd
    have h2 := hmax x hx
    have h3 := h.2.1
    have hid : d.id = coll.length := by omega
    rw [hid, wrap64_id _ (by omega) (by omega)] at hkd
    omega

theorem Sequential_getNextID {coll : List Doc} (h : Sequential coll) (env : Env)
    (hr : env.readFails = false) (hlen : coll.length < 999) :
    getNextID env coll = .ok (coll.length + 1) := by
  by_cases hne : coll = []
  · subst hne; simpa using getNextID_nil env hr
  · obtain ⟨d, hd, hmax, heq⟩ := getNextID_max env coll hr hne
    obtain ⟨x, hx, hxid⟩ := Sequential_last h hne
    have h1 := Sequential_mem h hd
    have h2 := hmax x hx
    have hid : d.id = coll.length := by omega
    rw [heq, if_pos (h.2.2 d hd), hid, wrap64_id _ (by omega) (by omega), if_neg (by omega)]

theorem Sequential_fresh {coll : List Doc} (h : Sequential coll) :
    ∀ d ∈ coll, d.id ≠ (coll.length : Int) + 1 := by
  intro d hd
  have := Sequential_mem h hd
  omega

theorem Sequential_append {coll : List Doc} (h : Sequential coll) (hlen : coll.length < 999)
    (env : Env) (req : CheckInRequest) :
    Sequential (coll ++ [newDoc env req (coll.length + 1)]) := by
  refine ⟨?_, ?_, ?_⟩
  · rw [List.map_append, h.1, List.length_append, List.length_singleton,
      List.range'_1_concat, List.map_append]
    simp [newDoc, encode]
    omega
  · rw [List.length_append, List.length_singleton]; omega
  · intro d hd
    rcases List.mem_append.1 hd with hd | hd
    · exact h.2.2 d hd
    · rw [List.mem_singleton.1 hd]; rfl

theorem updateOne_mem (id t : Int) : ∀ (l : List Doc) (u : Doc) (l' : List Doc),
    updateOne id t l = some (u, l') →
      ∀ x ∈ l', ∃ d ∈ l, x = d ∨ x = { d with checkout_time := some t } := by
  intro l
  induction l with
  | nil => intro u l' h; simp [updateOne] at h
  | cons a l ih =>
    intro u l' h x hx
    simp only [updateOne] at h
    by_cases ha : a.id = id
    · rw [if_pos ha] at h
      simp only [Option.some.injEq, Prod.mk.injEq] at h
      obtain ⟨_, h2⟩ := h
      subst h2
      rcases List.mem_cons.1 hx with hx | hx
      · exact ⟨a, List.mem_cons_self _ _, Or.inr hx⟩
      · exact ⟨x, List.mem_cons_of_mem _ hx, Or.inl rfl⟩
    · rw [if_neg ha] at h
      cases hu : updateOne id t l with
      | none => rw [hu] at h; cases h
      | some p =>
        obtain ⟨u0, l0⟩ := p
        rw [hu] at h
        simp only [Option.some.injEq, Prod.mk.injEq] at h
        obtain ⟨_, h2⟩ := h
        subst h2
        rcases List.mem_cons.1 hx with hx | hx
        · exact ⟨a, List.mem_cons_self _ _, Or.inl hx⟩
        · obtain ⟨d, hd, hxd⟩ := ih _ _ hu x hx
          exact ⟨d, List.mem_cons_of_mem _ hd, hxd⟩

theorem Sequential_updateOne {coll : List Doc} (h : Sequential coll) (id t : Int) (u : Doc)
    (coll' : List Doc) (hu : updateOne id t coll = some (u, coll')) : Sequential coll' := by
  have hmap := (updateOne_some id t coll u coll' hu).2
  have hlen : coll'.length = coll.length := by
    have := congrArg List.length hmap
    simpa using this
  refine ⟨by rw [hmap, hlen]; exact h.1, by rw [hlen]; exact h.2.1, ?_⟩
  intro x hx
  obtain ⟨d, hd, hxd⟩ := updateOne_mem id t coll u coll' hu x hx
  rcases hxd with rfl | rfl
  · exact h.2.2 _ hd
  · exact h.2.2 d hd

/-! ## Effect of each handler on the collection -/

theorem CheckOut_ids (s : server) (env : Env) (req : CheckOutRequest) (coll : List Doc) :
    ((CheckOut s env req coll).2).map Doc.id = coll.map Doc.id ∧
      (Sequential coll → Sequential (CheckOut s env req coll).2) := by
  unfold CheckOut
  cases hp : ParseInt req.RecordId with
  | error e => exact ⟨rfl, id⟩
  | ok k =>
    simp only [FindOneAndUpdate]
    by_cases hw : env.writeFails = true
    · rw [if_pos hw]; exact ⟨rfl, id⟩
    · rw [if_neg hw]
      cases hu : updateOne k (toDateTime env.now) coll with
      | none => exact ⟨rfl, id⟩
      | some p =>
        obtain ⟨u, coll'⟩ := p
        have hmap := (updateOne_some _ _ coll u coll' hu).2
        have hseq : Sequential coll → Sequential coll' :=
          fun h => Sequential_updateOne h _ _ _ _ hu
        simp only []
        cases hd : Decode u with
        | error e => cases e <;> exact ⟨hmap, hseq⟩
        | ok r => exact ⟨hmap, hseq⟩

theorem GetAttendance_coll (s : server) (env : Env) (req : GetAttendanceRequest)
    (coll : List Doc) : (GetAttendance s env req coll).2 = coll := by
  unfold GetAttendance
  split <;> rfl

theorem GetAllAttendance_coll (s : server) (env : Env) (coll : List Doc) :
    (GetAllAttendance s env coll).2 = coll := by
  unfold GetAllAttendance
  split
  · rfl
  · simp only []; split <;> rfl

theorem CheckIn_Sequential (s : server) (env : Env) (req : CheckInRequest) {coll : List Doc}
    (h : Sequential coll) : Sequential (CheckIn s env req coll).2 := by
  cases hres : (CheckIn s env req coll).1 with
  | error e => rw [CheckIn_error s env req coll e hres]; exact h
  | ok resp =>
    obtain ⟨k, hk, _, hcoll, _⟩ := CheckIn_ok s env req coll resp hres
    obtain ⟨hkv, hlen⟩ := Sequential_getNextID_ok h env k hk
    rw [hcoll, hkv]
    exact Sequential_append h hlen env req

theorem exec_Sequential (s : server) {coll : List Doc} (h : Sequential coll) (c : Call) :
    Sequential (exec s coll c) := by
  cases c with
  | checkIn env req => exact CheckIn_Sequential s env req h
  | checkOut env req => exact (CheckOut_ids s env req coll).2 h
  | getAttendance env req => simp only [exec, GetAttendance_coll]; exact h
  | getAllAttendance env => simp only [exec, GetAllAttendance_coll]; exact h

theorem run_Sequential (s : server) (calls : List Call) :
    ∀ coll, Sequential coll → Sequential (run s calls coll) := by
  induction calls with
  | nil => intro coll h; exact h
  | cons c cs ih =>
    intro coll h
    exact ih _ (exec_Sequential s h c)

/-! ## Check-ins in sequence -/

theorem checkIns_from (s : server) (calls : List (Env × CheckInRequest)) :
    ∀ coll, Sequential coll → coll.length + calls.length ≤ 999 →
      (∀ c ∈ calls, c.1.readFails = false ∧ c.1.writeFails = false) →
      (checkIns s calls coll).1.length = calls.length ∧
      (∀ (k : Nat) (c : Env × CheckInRequest), calls[k]? = some c →
        (checkIns s calls coll).1[k]? =
          some (Except.ok
            { Id := FormatInt ((coll.length : Int) + k + 1), UserId := c.2.UserId,
              Username := c.2.Username, CheckinTime := formatIST s c.1.now,
              CheckoutTime := "", StatusMessage := "User checked in successfully." })) ∧
      Sequential (checkIns s calls coll).2 ∧
      (checkIns s calls coll).2.length = coll.length + calls.length := by
  induction calls with
  | nil =>
    intro coll h _ _
    refine ⟨rfl, ?_, h, rfl⟩
    intro k c hc; simp at hc
  | cons a cs ih =>
    intro coll h hlen hcalm
    have hlen1 : coll.length + (cs.length + 1) ≤ 999 := by
      simpa using hlen
    have hlen2 : coll.length < 999 := by omega
    obtain ⟨hr, hw⟩ := hcalm a (List.mem_cons_self _ _)
    have hstep := CheckIn_calm s a.1 a.2 coll _ (Sequential_getNextID h a.1 hr hlen2) hw
      (Sequential_fresh h)
    have hseq := Sequential_append h hlen2 a.1 a.2
    have hih := ih _ hseq
      (by rw [List.length_append, List.length_singleton]; omega)
      (fun c hc => hcalm c (List.mem_cons_of_mem _ hc))
    simp only [checkIns, hstep]
    obtain ⟨h1, h2, h3, h4⟩ := hih
    refine ⟨by simp [h1], ?_, h3, ?_⟩
    · intro k c hc
      cases k with
      | zero =>
        simp only [List.getElem?_cons_zero, Option.some.injEq] at hc
        subst hc
        simp
      | succ k =>
        simp only [List.getElem?_cons_succ] at hc ⊢
        rw [h2 k c hc]
        have : (((coll ++ [newDoc a.1 a.2 ((coll.length : Int) + 1)]).length : Nat) : Int) + k + 1
            = coll.length + ((k + 1 : Nat) : Int) + 1 := by
          rw [List.length_append, List.length_singleton]; push_cast; ring
        rw [this]
    · rw [h4, List.length_append, List.length_singleton, List.length_cons]
      omega

/-- C1: starting from the empty collection, in a run of N ≤ 999 `CheckIn`
calls that meet no storage failure, every call succeeds, the call at position
k (counted from 0) is answered with the decimal id k + 1 and the request's
user id and username, and the collection ends up holding the ids 1, ..., N in
creation order. -/
theorem C1_checkIns_assign_one_to_N (s : server) (calls : List (Env × CheckInRequest))
    (hN : calls.length ≤ 999)
    (hcalm : ∀ c ∈ calls, c.1.readFails = false ∧ c.1.writeFails = false) :
    (checkIns s calls []).1.length = calls.length ∧
    (∀ (k : Nat) (c : Env × CheckInRequest), calls[k]? = some c →
      (checkIns s calls []).1[k]? =
        some (Except.ok
          { Id := FormatInt ((k : Int) + 1), UserId := c.2.UserId,
            Username := c.2.Username, CheckinTime := formatIST s c.1.now,
            CheckoutTime := "", StatusMessage := "User checked in successfully." })) ∧
    (checkIns s calls []).2.map Doc.id = (List.range' 1 calls.length).map Int.ofNat := by
  obtain ⟨h1, h2, h3, h4⟩ := checkIns_from s calls [] Sequential_nil (by simpa using hN) hcalm
  refine ⟨h1, ?_, ?_⟩
  · intro k c hc
    have := h2 k c hc
    simpa using this
  · have := h3.1
    rw [h4] at this
    simpa using this

/-- Witness of C1: two check-ins on the empty collection. -/
theorem C1_witness :
    twoCalls.length ≤ 999 ∧
    (∀ c ∈ twoCalls, c.1.readFails = false ∧ c.1.writeFails = false) ∧
    (checkIns srv twoCalls []).1.length = twoCalls.length ∧
    (∀ (k : Nat) (c : Env × CheckInRequest), twoCalls[k]? = some c →
      (checkIns srv twoCalls []).1[k]? =
        some (Except.ok
          { Id := FormatInt ((k : Int) + 1), UserId := c.2.UserId,
            Username := c.2.Username, CheckinTime := formatIST srv c.1.now,
            CheckoutTime := "", StatusMessage := "User checked in successfully." })) ∧
    (checkIns srv twoCalls []).2.map Doc.id = (List.range' 1 twoCalls.length).map Int.ofNat :=
  ⟨by decide, by decide, C1_checkIns_assign_one_to_N srv twoCalls (by decide) (by decide)⟩

/-- C2 as amended: on a collection whose highest id is 999, `CheckIn` that can
read the collection writes nothing, whatever the request: the collection comes
back exactly as it was. The call fails with `ResourceExhausted` when the
document of id 999 that the lookup finds decodes, and with `Internal` when it
does not; so it fails with `ResourceExhausted` whenever every document of id
999 decodes. -/
theorem C2_checkIn_exhausted (s : server) (env : Env) (req : CheckInRequest)
    (coll : List Doc) (hread : env.readFails = false)
    (hmax : ∀ d ∈ coll, d.id ≤ 999) (h999 : ∃ d ∈ coll, d.id = 999) :
    (∃ d ∈ coll, d.id = 999 ∧
      CheckIn s env req coll =
        (.error (if d.decodes = true then codes.ResourceExhausted else codes.Internal),
         coll)) ∧
    ((∀ d ∈ coll, d.id = 999 → d.decodes = true) →
      CheckIn s env req coll = (.error .ResourceExhausted, coll)) := by
  obtain ⟨x, hx, hxid⟩ := h999
  have hne : coll ≠ [] := List.ne_nil_of_mem hx
  obtain ⟨d, hd, hge, heq⟩ := getNextID_max env coll hread hne
  have hid : d.id = 999 := by
    have h1 := hmax d hd
    have h2 := hge x hx
    omega
  have hw : wrap64 (999 + 1) = 1000 := by unfold wrap64; norm_num
  rw [hid, hw] at heq
  have hge1000 : (1000 : Int) ≥ 1000 := le_refl _
  have hres : CheckIn s env req coll =
      (.error (if d.decodes = true then codes.ResourceExhausted else codes.Internal),
       coll) := by
    unfold CheckIn
    rw [heq]
    by_cases hdec : d.decodes = true
    · simp only [hdec, if_true, hge1000]
    · have hdec2 : d.decodes = false := by simpa using hdec
      simp only [hdec2, Bool.false_eq_true, if_false]
  refine ⟨⟨d, hd, hid, hres⟩, ?_⟩
  intro hall
  rw [hres, if_pos (hall d hd hid)]

/-- Witness of C2: a collection that holds the single id 999. -/
theorem C2_witness :
    (∃ d ∈ [(⟨999, "u9", "Zed", 1600000000000, none, true⟩ : Doc)], d.id = 999 ∧
      CheckIn srv (calm 1700000000000000000) ⟨"u1", "Alice"⟩
          [⟨999, "u9", "Zed", 1600000000000, none, true⟩] =
        (.error (if d.decodes = true then codes.ResourceExhausted else codes.Internal),
         [⟨999, "u9", "Zed", 1600000000000, none, true⟩])) ∧
    ((∀ d ∈ [(⟨999, "u9", "Zed", 1600000000000, none, true⟩ : Doc)],
        d.id = 999 → d.decodes = true) →
      CheckIn srv (calm 1700000000000000000) ⟨"u1", "Alice"⟩
          [⟨999, "u9", "Zed", 1600000000000, none, true⟩] =
        (.error .ResourceExhausted, [⟨999, "u9", "Zed", 1600000000000, none, true⟩])) :=
  C2_checkIn_exhausted srv (calm 1700000000000000000) ⟨"u1", "Alice"⟩
    [⟨999, "u9", "Zed", 1600000000000, none, true⟩] rfl (by decide) (by decide)

/-- Counterexample to C2 as stated: the highest id of the collection is 999,
held by a document that does not decode. `getNextID` cannot decode the latest
record and `CheckIn` fails with `Internal`, not `ResourceExhausted`. -/
theorem C2_counterexample :
    CheckIn srv (calm 1700000000000000000) ⟨"u1", "Alice"⟩
        [⟨998, "u8", "Yan", 1600000000000, none, true⟩,
         ⟨999, "u9", "Zed", 1600000100000, none, false⟩] =
      (.error .Internal,
       [⟨998, "u8", "Yan", 1600000000000, none, true⟩,
        ⟨999, "u9", "Zed", 1600000100000, none, false⟩]) := by
  decide

/-- C3: in every collection reachable from the empty one by a finite sequence
of `CheckIn`, `CheckOut`, `GetAttendance` and `GetAllAttendance` calls (with
any clock readings and any storage failures), the ids are pairwise distinct
and lie between 1 and 999; a `CheckIn` that succeeds there hands out an id
greater than every id in the collection and appends it; and no call changes
the ids already there: they stay, in place, as the front of the id list. -/
theorem C3_reachable_ids (s : server) (calls : List Call) :
    ((run s calls []).map Doc.id).Nodup ∧
    (∀ d ∈ run s calls [], 1 ≤ d.id ∧ d.id ≤ 999) ∧
    (∀ (env : Env) (req : CheckInRequest) (resp : AttendanceRecordResponse),
      (CheckIn s env req (run s calls [])).1 = .ok resp →
        ∃ k : Int, resp.Id = FormatInt k ∧ (∀ d ∈ run s calls [], d.id < k) ∧
          ((CheckIn s env req (run s calls [])).2).map Doc.id =
            (run s calls []).map Doc.id ++ [k]) ∧
    (∀ c : Call, ∃ t : List Int,
      (exec s (run s calls []) c).map Doc.id = (run s calls []).map Doc.id ++ t) := by
  have hseq := run_Sequential s calls [] Sequential_nil
  refine ⟨Sequential_nodup hseq, ?_, ?_, ?_⟩
  · intro d hd
    have := Sequential_mem hseq hd
    have := hseq.2.1
    omega
  · intro env req resp hres
    obtain ⟨k, hk, _, hcoll, hresp⟩ := CheckIn_ok s env req _ resp hres
    obtain ⟨hkv, _⟩ := Sequential_getNextID_ok hseq env k hk
    refine ⟨k, by rw [hresp], ?_, ?_⟩
    · intro d hd
      have := Sequential_mem hseq hd
      omega
    · rw [hcoll, List.map_append]; rfl
  · intro c
    cases c with
    | checkIn env req =>
      cases hres : (CheckIn s env req (run s calls [])).1 with
      | error e =>
        exact ⟨[], by simp only [exec, CheckIn_error s env req _ e hres, List.append_nil]⟩
      | ok resp =>
        obtain ⟨k, _, _, hcoll, _⟩ := CheckIn_ok s env req _ resp hres
        exact ⟨[k], by simp only [exec, hcoll, List.map_append]; rfl⟩
    | checkOut env req =>
      exact ⟨[], by simp only [exec, (CheckOut_ids s env req _).1, List.append_nil]⟩
    | getAttendance env req =>
      exact ⟨[], by simp only [exec, GetAttendance_coll, List.append_nil]⟩
    | getAllAttendance env =>
      exact ⟨[], by simp only [exec, GetAllAttendance_coll, List.append_nil]⟩

/-- Witness of C3: after a check-in, a check-out and the two queries, the next
check-in succeeds and is handed the id 2, above the id 1 already there. -/
theorem C3_witness :
    (CheckIn srv (calm 1700000900000000000) ⟨"u2", "Bob"⟩ (run srv fourCalls [])).1 =
      .ok ⟨"2", "u2", "Bob", "2023-11-15 03:58:20 IST", "", "User checked in successfully."⟩ ∧
    ∃ k : Int, "2" = FormatInt k ∧ (∀ d ∈ run srv fourCalls [], d.id < k) ∧
      ((CheckIn srv (calm 1700000900000000000) ⟨"u2", "Bob"⟩ (run srv fourCalls [])).2).map
          Doc.id = (run srv fourCalls []).map Doc.id ++ [k] :=
  ⟨by decide,
   (C3_reachable_ids srv fourCalls).2.2.1 (calm 1700000900000000000) ⟨"u2", "Bob"⟩
     ⟨"2", "u2", "Bob", "2023-11-15 03:58:20 IST", "", "User checked in successfully."⟩
     (by decide)⟩

/-- C4 as amended: a `record_id` that is not a decimal numeral with an
optional sign (`+`, `-` or none, then one or more ASCII digits) makes
`CheckOut` fail with `InvalidArgument` and leaves the collection as it
was. -/
theorem C4_checkOut_invalid (s : server) (env : Env) (req : CheckOutRequest)
    (coll : List Doc) (h : signedDecimal req.RecordId = false) :
    CheckOut s env req coll = (.error .InvalidArgument, coll) := by
  unfold CheckOut
  cases hp : ParseInt req.RecordId with
  | error e => rfl
  | ok k =>
    have := ParseInt_ok_signedDecimal _ _ hp
    rw [h] at this
    cases this

/-- Witness of C4: the record id `abc`. -/
theorem C4_witness :
    signedDecimal "abc" = false ∧
    CheckOut srv (calm 1700000000000000000) ⟨"abc"⟩
        [⟨1, "u1", "Alice", 1600000000000, none, true⟩] =
      (.error .InvalidArgument, [⟨1, "u1", "Alice", 1600000000000, none, true⟩]) :=
  ⟨by decide, C4_checkOut_invalid srv (calm 1700000000000000000) ⟨"abc"⟩
    [⟨1, "u1", "Alice", 1600000000000, none, true⟩] (by decide)⟩

/-- Counterexample to C4 as stated: `-1` is not the numeral of a non-negative
integer, yet `strconv.ParseInt` accepts it, and `CheckOut` goes on to the
lookup and fails with `NotFound`, not `InvalidArgument`. -/
theorem C4_counterexample :
    ParseInt "-1" = .ok (-1) ∧
    CheckOut srv (calm 1700000000000000000) ⟨"-1"⟩
        [⟨1, "u1", "Alice", 1600000000000, none, true⟩] =
      (.error .NotFound, [⟨1, "u1", "Alice", 1600000000000, none, true⟩]) := by
  decide

/-- C5: a `record_id` that parses to an integer which is the id of no document
in the collection makes `CheckOut` (whose storage call goes through) fail with
`NotFound` and leaves the collection as it was. -/
theorem C5_checkOut_not_found (s : server) (env : Env) (req : CheckOutRequest)
    (coll : List Doc) (k : Int) (hparse : ParseInt req.RecordId = .ok k)
    (habsent : ∀ d ∈ coll, d.id ≠ k) (hw : env.writeFails = false) :
    CheckOut s env req coll = (.error .NotFound, coll) := by
  unfold CheckOut
  rw [hparse]
  simp only [FindOneAndUpdate, hw, Bool.false_eq_true, if_false]
  rw [(updateOne_none k (toDateTime env.now) coll).2 habsent]

/-- Witness of C5: record id `7` on a collection that holds the id 1 only. -/
theorem C5_witness :
    ParseInt "7" = .ok 7 ∧
    CheckOut srv (calm 1700000000000000000) ⟨"7"⟩
        [⟨1, "u1", "Alice", 1600000000000, none, true⟩] =
      (.error .NotFound, [⟨1, "u1", "Alice", 1600000000000, none, true⟩]) :=
  ⟨by decide, C5_checkOut_not_found srv (calm 1700000000000000000) ⟨"7"⟩
    [⟨1, "u1", "Alice", 1600000000000, none, true⟩] 7 (by decide) (by decide) rfl⟩

theorem GetAttendance_found (s : server) (env : Env) (req : GetAttendanceRequest)
    (coll : List Doc) (d : Doc) (hread : env.readFails = false)
    (hm : maxBy Doc.checkin_time (coll.filter (fun d => decide (d.user_id = req.UserId)))
      = some d) (hdec : d.decodes = true) :
    GetAttendance s env req coll = (.ok (recordResponse s (toRecord d) "Record found."), coll) := by
  unfold GetAttendance FindOne
  rw [hread, hm]
  simp only [Bool.false_eq_true, if_false, Decode, hdec, if_true]

theorem GetAttendance_selected (s : server) (env : Env) (req : GetAttendanceRequest)
    (coll : List Doc) (d : Doc) (hread : env.readFails = false)
    (hm : maxBy Doc.checkin_time (coll.filter (fun d => decide (d.user_id = req.UserId)))
      = some d) :
    GetAttendance s env req coll =
      (if d.decodes = true then .ok (recordResponse s (toRecord d) "Record found.")
       else .error .Internal, coll) := by
  unfold GetAttendance FindOne
  rw [hread, hm]
  by_cases hdec : d.decodes = true
  · simp only [Bool.false_eq_true, if_false, Decode, hdec, if_true]
  · have hdec2 : d.decodes = false := by simpa using hdec
    simp only [Bool.false_eq_true, if_false, Decode, hdec2]

/-- C7 as amended: when the read goes through, `GetAttendance` fails with
`NotFound` exactly when no document has user id `u`. Otherwise the lookup
selects a document of the collection that has user id `u` and whose
`checkin_time` is at least that of every document with user id `u`; the call
succeeds with the response built from that document when it decodes, and fails
with `Internal` when it does not. The collection is returned as it was. -/
theorem C7_getAttendance_latest (s : server) (env : Env) (req : GetAttendanceRequest)
    (coll : List Doc) (hread : env.readFails = false) :
    ((GetAttendance s env req coll).1 = .error .NotFound ↔
      ∀ d ∈ coll, d.user_id ≠ req.UserId) ∧
    ((∃ d ∈ coll, d.user_id = req.UserId) →
      ∃ d ∈ coll, d.user_id = req.UserId ∧
        (∀ x ∈ coll, x.user_id = req.UserId → x.checkin_time ≤ d.checkin_time) ∧
        (GetAttendance s env req coll).1 =
          if d.decodes = true then .ok (recordResponse s (toRecord d) "Record found.")
          else .error .Internal) ∧
    (GetAttendance s env req coll).2 = coll := by
  have hfilter : ∀ d, d ∈ coll.filter (fun d => decide (d.user_id = req.UserId)) ↔
      d ∈ coll ∧ d.user_id = req.UserId := by
    intro d; simp [List.mem_filter]
  cases hm : maxBy Doc.checkin_time (coll.filter (fun d => decide (d.user_id = req.UserId))) with
  | none =>
    have hnil := (maxBy_none _ _).1 hm
    have hall : ∀ d ∈ coll, d.user_id ≠ req.UserId := by
      intro d hd hu
      have : d ∈ coll.filter (fun d => decide (d.user_id = req.UserId)) := (hfilter d).2 ⟨hd, hu⟩
      rw [hnil] at this; cases this
    have hres : GetAttendance s env req coll = (.error .NotFound, coll) := by
      unfold GetAttendance FindOne
      rw [hread, hm]; rfl
    refine ⟨by rw [hres]; exact ⟨fun _ => hall, fun _ => rfl⟩, ?_, by rw [hres]⟩
    rintro ⟨d, hd, hu⟩
    exact absurd hu (hall d hd)
  | some d =>
    obtain ⟨hd, hmax⟩ := maxBy_some _ _ _ hm
    obtain ⟨hdc, hdu⟩ := (hfilter d).1 hd
    have hres := GetAttendance_selected s env req coll d hread hm
    refine ⟨?_, ?_, by rw [hres]⟩
    · rw [hres]
      constructor
      · intro h
        by_cases hdec : d.decodes = true
        · simp only [hdec, if_true] at h; cases h
        · simp only [hdec, if_false] at h; cases h
      · intro hall; exact absurd hdu (hall d hdc)
    · intro _
      exact ⟨d, hdc, hdu, fun x hx hxu => hmax x ((hfilter x).2 ⟨hx, hxu⟩), by rw [hres]⟩

/-- Witness of C7: user `u1` with two records, the later one at id 3. -/
theorem C7_witness :
    (GetAttendance srv (calm 1700000000000000000) ⟨"u1"⟩ threeDocs).1 =
      .ok ⟨"3", "u1", "Alice", "2020-09-13 18:00:00 IST", "", "Record found."⟩ ∧
    ((GetAttendance srv (calm 1700000000000000000) ⟨"u1"⟩ threeDocs).1 = .error .NotFound ↔
      ∀ d ∈ threeDocs, d.user_id ≠ "u1") ∧
    ((∃ d ∈ threeDocs, d.user_id = "u1") →
      ∃ d ∈ threeDocs, d.user_id = "u1" ∧
        (∀ x ∈ threeDocs, x.user_id = "u1" → x.checkin_time ≤ d.checkin_time) ∧
        (GetAttendance srv (calm 1700000000000000000) ⟨"u1"⟩ threeDocs).1 =
          if d.decodes = true then .ok (recordResponse srv (toRecord d) "Record found.")
          else .error .Internal) ∧
    (GetAttendance srv (calm 1700000000000000000) ⟨"u1"⟩ threeDocs).2 = threeDocs :=
  ⟨by decide, C7_getAttendance_latest srv (calm 1700000000000000000) ⟨"u1"⟩ threeDocs rfl⟩

/-- Counterexample to C7 as stated: the collection holds records of `u1`, the
latest of which does not decode. `GetAttendance` answers `Internal`: it neither
fails with `NotFound` nor succeeds. -/
theorem C7_counterexample :
    (∃ d ∈ [(⟨1, "u1", "Alice", 1600000000000, none, true⟩ : Doc),
            ⟨2, "u1", "Alice", 1600000200000, none, false⟩], d.user_id = "u1") ∧
    GetAttendance srv (calm 1700000000000000000) ⟨"u1"⟩
        [⟨1, "u1", "Alice", 1600000000000, none, true⟩,
         ⟨2, "u1", "Alice", 1600000200000, none, false⟩] =
      (.error .Internal,
       [⟨1, "u1", "Alice", 1600000000000, none, true⟩,
        ⟨2, "u1", "Alice", 1600000200000, none, false⟩]) := by
  decide

theorem foldl_collect (s : server) (coll : List Doc) :
    ∀ acc, coll.foldl (collect s) acc =
      acc ++ (coll.filter Doc.decodes).map
        (fun d => recordResponse s (toRecord d) "Record retrieved.") := by
  induction coll with
  | nil => intro acc; simp
  | cons d ds ih =>
    intro acc
    rw [List.foldl_cons, ih]
    by_cases hd : d.decodes = true
    · simp [collect, Decode, hd, List.filter_cons]
    · have hd2 : d.decodes = false := by simpa using hd
      simp [collect, Decode, hd2, List.filter_cons]

/-- C10: when neither `Find` nor the cursor fails, `GetAllAttendance` succeeds
and returns one response per document that decodes, in natural order, built
from that document (its id, user id, username and times); documents that do
not decode are passed over without an error. The collection is returned as it
was, and on the empty collection the result is the empty sequence. -/
theorem C10_getAll_lenient (s : server) (env : Env) (coll : List Doc)
    (hread : env.readFails = false) (hcursor : env.cursorFails = false) :
    GetAllAttendance s env coll =
      (.ok { Records := (coll.filter Doc.decodes).map
               (fun d => recordResponse s (toRecord d) "Record retrieved.") }, coll) ∧
    GetAllAttendance s env [] = (.ok { Records := [] }, []) := by
  constructor
  · unfold GetAllAttendance
    simp only [hread, hcursor, Bool.false_eq_true, if_false, foldl_collect, List.nil_append]
  · unfold GetAllAttendance
    simp only [hread, hcursor, Bool.false_eq_true, if_false, List.foldl_nil]

/-- Witness of C10: a collection whose second document does not decode. -/
theorem C10_witness :
    (GetAllAttendance srv (calm 1700000000000000000)
        [⟨1, "u1", "Alice", 1600000000000, some 1600000500000, true⟩,
         ⟨2, "u2", "Bob", 1600000100000, none, false⟩,
         ⟨3, "u3", "Cy", 1600000200000, none, true⟩]).1 =
      .ok ⟨[⟨"1", "u1", "Alice", "2020-09-13 17:56:40 IST", "2020-09-13 18:05:00 IST",
             "Record retrieved."⟩,
            ⟨"3", "u3", "Cy", "2020-09-13 18:00:00 IST", "", "Record retrieved."⟩]⟩ :=
  (congrArg Prod.fst (C10_getAll_lenient srv (calm 1700000000000000000)
      [⟨1, "u1", "Alice", 1600000000000, some 1600000500000, true⟩,
       ⟨2, "u2", "Bob", 1600000100000, none, false⟩,
       ⟨3, "u3", "Cy", 1600000200000, none, true⟩] rfl rfl).1).trans (by decide)

/-! ## Round trips -/

theorem maxBy_append_last (key : Doc → Int) (y : Doc) : ∀ (l : List Doc),
    (∀ x ∈ l, key x < key y) → maxBy key (l ++ [y]) = some y := by
  intro l
  induction l with
  | nil => intro _; rfl
  | cons a l ih =>
    intro h
    have hl := ih (fun x hx => h x (List.mem_cons_of_mem _ hx))
    have ha := h a (List.mem_cons_self _ _)
    rw [List.cons_append]
    simp only [maxBy, hl]
    rw [if_pos ha]

theorem updateOne_append_last (t : Int) (x : Doc) : ∀ (l : List Doc),
    (∀ d ∈ l, d.id ≠ x.id) →
      updateOne x.id t (l ++ [x]) =
        some ({ x with checkout_time := some t }, l ++ [{ x with checkout_time := some t }]) := by
  intro l
  induction l with
  | nil => intro _; simp [updateOne]
  | cons a l ih =>
    intro h
    have ha := h a (List.mem_cons_self _ _)
    rw [List.cons_append]
    simp only [updateOne]
    rw [if_neg ha, ih (fun d hd => h d (List.mem_cons_of_mem _ hd))]
    rfl

theorem GetAttendance_last (s : server) (env : Env) (u : String) (coll : List Doc) (y : Doc)
    (hread : env.readFails = false) (hy : y.user_id = u) (hdec : y.decodes = true)
    (hnewest : ∀ d ∈ coll, d.user_id = u → d.checkin_time < y.checkin_time) :
    GetAttendance s env ⟨u⟩ (coll ++ [y]) =
      (.ok (recordResponse s (toRecord y) "Record found."), coll ++ [y]) := by
  apply GetAttendance_found s env ⟨u⟩ (coll ++ [y]) y hread _ hdec
  rw [List.filter_append]
  have : [y].filter (fun d => decide (d.user_id = u)) = [y] := by
    simp [List.filter_cons, hy]
  rw [this]
  apply maxBy_append_last
  intro x hx
  rw [List.mem_filter] at hx
  exact hnewest x hx.1 (by simpa using hx.2)

/-- C8 as amended: if `CheckIn(u, n)` succeeds and every document the
collection already held for `u` has a `checkin_time` strictly before the new
one (in the store's milliseconds), then `GetAttendance(u)` called right after
(its read going through) succeeds and returns the record just created: the id
`CheckIn` answered, user id `u`, username `n`, the same check-in time as in the
answer of `CheckIn`, and an empty checkout time. -/
theorem C8_checkIn_then_latest (s : server) (env env2 : Env) (req : CheckInRequest)
    (coll : List Doc) (resp : AttendanceRecordResponse)
    (hin : (CheckIn s env req coll).1 = .ok resp)
    (hnewest : ∀ d ∈ coll, d.user_id = req.UserId → d.checkin_time < toDateTime env.now)
    (hread : env2.readFails = false) :
    (GetAttendance s env2 ⟨req.UserId⟩ (CheckIn s env req coll).2).1 =
      .ok { Id := resp.Id, UserId := req.UserId, Username := req.Username,
            CheckinTime := resp.CheckinTime, CheckoutTime := "",
            StatusMessage := "Record found." } := by
  obtain ⟨k, _, _, hcoll, hresp⟩ := CheckIn_ok s env req coll resp hin
  rw [hcoll, GetAttendance_last s env2 req.UserId coll (newDoc env req k) hread rfl rfl hnewest,
    hresp]
  simp only [recordResponse, toRecord, newDoc, encode, Option.map_none', formatIST_stored]

/-- Witness of C8: a first check-in of user `u3` into a collection of three. -/
theorem C8_witness :
    (CheckIn srv (calm 1700000000000000000) ⟨"u3", "Cy"⟩ threeDocs).1 =
      .ok ⟨"4", "u3", "Cy", "2023-11-15 03:43:20 IST", "", "User checked in successfully."⟩ ∧
    (GetAttendance srv (calm 1700000001000000000) ⟨"u3"⟩
        (CheckIn srv (calm 1700000000000000000) ⟨"u3", "Cy"⟩ threeDocs).2).1 =
      .ok ⟨"4", "u3", "Cy", "2023-11-15 03:43:20 IST", "", "Record found."⟩ :=
  ⟨by decide,
   C8_checkIn_then_latest srv (calm 1700000000000000000) (calm 1700000001000000000)
     ⟨"u3", "Cy"⟩ threeDocs
     ⟨"4", "u3", "Cy", "2023-11-15 03:43:20 IST", "", "User checked in successfully."⟩
     (by decide) (by decide) rfl⟩

/-- Counterexample to C8 as stated: the collection holds a record of `u1`
whose `checkin_time` lies 100 seconds after the clock reading of the new
check-in. `CheckIn` succeeds with id 2, and `GetAttendance` right after
returns record 1 (another username, a checkout time), not the record just
created. -/
theorem C8_counterexample :
    (CheckIn srv (calm 1700000000000000000) ⟨"u1", "Alice"⟩
        [⟨1, "u1", "Al", 1700000100000, some 1700000200000, true⟩]).1 =
      .ok ⟨"2", "u1", "Alice", "2023-11-15 03:43:20 IST", "", "User checked in successfully."⟩ ∧
    (GetAttendance srv (calm 1700000001000000000) ⟨"u1"⟩
        (CheckIn srv (calm 1700000000000000000) ⟨"u1", "Alice"⟩
          [⟨1, "u1", "Al", 1700000100000, some 1700000200000, true⟩]).2).1 =
      .ok ⟨"1", "u1", "Al", "2023-11-15 03:45:00 IST", "2023-11-15 03:46:40 IST",
           "Record found."⟩ := by
  decide

/-- C9 as amended: if `CheckIn(u, n)` succeeds and answers the id string `s`,
every document the collection already held for `u` has a `checkin_time`
strictly before the new one, the clock reading of `CheckOut` is not earlier
than that of `CheckIn`, and the storage calls of `CheckOut` and
`GetAttendance` go through, then `s` parses back to the assigned id,
`CheckOut(s)` succeeds on the record just created (setting the checkout time
of that document and of no other), and `GetAttendance(u)` afterwards returns
that record with a non-empty checkout time; the stored `checkout_time` is not
earlier than the stored `checkin_time`. -/
theorem C9_checkIn_checkOut_latest (s : server) (e1 e2 e3 : Env) (req : CheckInRequest)
    (coll : List Doc) (resp : AttendanceRecordResponse)
    (hin : (CheckIn s e1 req coll).1 = .ok resp)
    (hnewest : ∀ d ∈ coll, d.user_id = req.UserId → d.checkin_time < toDateTime e1.now)
    (hclock : e1.now ≤ e2.now) (hw : e2.writeFails = false) (hread : e3.readFails = false) :
    ∃ k : Int, ParseInt resp.Id = .ok k ∧
      (CheckIn s e1 req coll).2 =
        coll ++ [⟨k, req.UserId, req.Username, toDateTime e1.now, none, true⟩] ∧
      CheckOut s e2 ⟨resp.Id⟩ (CheckIn s e1 req coll).2 =
        (.ok { Id := resp.Id, UserId := req.UserId, Username := req.Username,
               CheckinTime := resp.CheckinTime, CheckoutTime := formatIST s e2.now,
               StatusMessage := "User checked out successfully." },
         coll ++ [⟨k, req.UserId, req.Username, toDateTime e1.now,
                   some (toDateTime e2.now), true⟩]) ∧
      toDateTime e1.now ≤ toDateTime e2.now ∧
      (GetAttendance s e3 ⟨req.UserId⟩
          (CheckOut s e2 ⟨resp.Id⟩ (CheckIn s e1 req coll).2).2).1 =
        .ok { Id := resp.Id, UserId := req.UserId, Username := req.Username,
              CheckinTime := resp.CheckinTime, CheckoutTime := formatIST s e2.now,
              StatusMessage := "Record found." } ∧
      formatIST s e2.now ≠ "" := by
  obtain ⟨k, hk, hfresh, hcoll, hresp⟩ := CheckIn_ok s e1 req coll resp hin
  obtain ⟨hlo, hhi, _, _⟩ := getNextID_ok e1 coll k hk
  have hparse : ParseInt resp.Id = .ok k := by
    rw [hresp]; exact ParseInt_FormatInt k hlo (by omega)
  have hout : CheckOut s e2 ⟨resp.Id⟩ (CheckIn s e1 req coll).2 =
      (.ok { Id := resp.Id, UserId := req.UserId, Username := req.Username,
             CheckinTime := resp.CheckinTime, CheckoutTime := formatIST s e2.now,
             StatusMessage := "User checked out successfully." },
       coll ++ [⟨k, req.UserId, req.Username, toDateTime e1.now,
                 some (toDateTime e2.now), true⟩]) := by
    unfold CheckOut
    simp only [hparse, FindOneAndUpdate, hw, Bool.false_eq_true, if_false, hcoll]
    have hupd := updateOne_append_last (toDateTime e2.now) (newDoc e1 req k) coll hfresh
    have hid : (newDoc e1 req k).id = k := rfl
    rw [hid] at hupd
    rw [hupd, hresp]
    simp only [Decode, newDoc, encode, if_true, recordResponse, toRecord, Option.map_none',
      Option.map_some', formatIST_stored]
  refine ⟨k, hparse, hcoll, hout, toDateTime_mono hclock, ?_, formatIST_ne_empty s e2.now⟩
  rw [hout]
  simp only []
  rw [GetAttendance_last s e3 req.UserId coll _ hread rfl rfl hnewest, hresp]
  simp only [recordResponse, toRecord, Option.map_some', formatIST_stored]

/-- Witness of C9: check-in, check-out ten minutes later, then the query. -/
theorem C9_witness :
    (CheckIn srv (calm 1700000000000000000) ⟨"u3", "Cy"⟩ threeDocs).1 =
      .ok ⟨"4", "u3", "Cy", "2023-11-15 03:43:20 IST", "", "User checked in successfully."⟩ ∧
    ∃ k : Int, ParseInt "4" = .ok k ∧
      (CheckIn srv (calm 1700000000000000000) ⟨"u3", "Cy"⟩ threeDocs).2 =
        threeDocs ++ [⟨k, "u3", "Cy", 1700000000000, none, true⟩] ∧
      CheckOut srv (calm 1700000600000000000) ⟨"4"⟩
          (CheckIn srv (calm 1700000000000000000) ⟨"u3", "Cy"⟩ threeDocs).2 =
        (.ok ⟨"4", "u3", "Cy", "2023-11-15 03:43:20 IST", "2023-11-15 03:53:20 IST",
              "User checked out successfully."⟩,
         threeDocs ++ [⟨k, "u3", "Cy", 1700000000000, some 1700000600000, true⟩]) ∧
      (1700000000000 : Int) ≤ 1700000600000 ∧
      (GetAttendance srv (calm 1700000700000000000) ⟨"u3"⟩
          (CheckOut srv (calm 1700000600000000000) ⟨"4"⟩
            (CheckIn srv (calm 1700000000000000000) ⟨"u3", "Cy"⟩ threeDocs).2).2).1 =
        .ok ⟨"4", "u3", "Cy", "2023-11-15 03:43:20 IST", "2023-11-15 03:53:20 IST",
             "Record found."⟩ ∧
      "2023-11-15 03:53:20 IST" ≠ "" :=
  ⟨by decide,
   C9_checkIn_checkOut_latest srv (calm 1700000000000000000) (calm 1700000600000000000)
     (calm 1700000700000000000) ⟨"u3", "Cy"⟩ threeDocs
     ⟨"4", "u3", "Cy", "2023-11-15 03:43:20 IST", "", "User checked in successfully."⟩
     (by decide) (by decide) (by decide) rfl rfl⟩

/-- Counterexample to C9 as stated, in two runs. In the first the wall clock
reads ten seconds less at `CheckOut` than at `CheckIn`: every call succeeds and
the record that `GetAttendance` returns has a checkout time before its
check-in time. In the second the collection holds an open record of `u1` with
a later `checkin_time`: `GetAttendance` returns that one, with no checkout
time. -/
theorem C9_counterexample :
    (CheckOut srv (calm 1699999990000000000) ⟨"1"⟩
        (CheckIn srv (calm 1700000000000000000) ⟨"u1", "Alice"⟩ []).2 =
      (.ok ⟨"1", "u1", "Alice", "2023-11-15 03:43:20 IST", "2023-11-15 03:43:10 IST",
            "User checked out successfully."⟩,
       [⟨1, "u1", "Alice", 1700000000000, some 1699999990000, true⟩]) ∧
     (GetAttendance srv (calm 1700000001000000000) ⟨"u1"⟩
        (CheckOut srv (calm 1699999990000000000) ⟨"1"⟩
          (CheckIn srv (calm 1700000000000000000) ⟨"u1", "Alice"⟩ []).2).2).1 =
      .ok ⟨"1", "u1", "Alice", "2023-11-15 03:43:20 IST", "2023-11-15 03:43:10 IST",
           "Record found."⟩ ∧
     (1699999990000 : Int) < 1700000000000) ∧
    ((CheckIn srv (calm 1700000000000000000) ⟨"u1", "Alice"⟩
        [⟨1, "u1", "Al", 1700000100000, none, true⟩]).1 =
      .ok ⟨"2", "u1", "Alice", "2023-11-15 03:43:20 IST", "", "User checked in successfully."⟩ ∧
     (CheckOut srv (calm 1700000010000000000) ⟨"2"⟩
        (CheckIn srv (calm 1700000000000000000) ⟨"u1", "Alice"⟩
          [⟨1, "u1", "Al", 1700000100000, none, true⟩]).2).1 =
      .ok ⟨"2", "u1", "Alice", "2023-11-15 03:43:20 IST", "2023-11-15 03:43:30 IST",
           "User checked out successfully."⟩ ∧
     (GetAttendance srv (calm 1700000020000000000) ⟨"u1"⟩
        (CheckOut srv (calm 1700000010000000000) ⟨"2"⟩
          (CheckIn srv (calm 1700000000000000000) ⟨"u1", "Alice"⟩
            [⟨1, "u1", "Al", 1700000100000, none, true⟩]).2).2).1 =
      .ok ⟨"1", "u1", "Al", "2023-11-15 03:45:00 IST", "", "Record found."⟩) := by
  decide

end Attendance
